import Mathlib

/-!
Verification of the pull-spec parser/formatter, manifest-metadata extractor
and tag resolver of `pkg/image/api/helper.go`.

Conventions of the embedding:
* Go strings are Lean `String`s; `strings.Split` with the one-character
  separator `"/"` is embedded as `splitOnChar` over the character list.
* Go's multiple-return `(..., err)` is embedded as `Except String`; a Go
  `nil` error is `Except.ok`.
* Go's `%q` format verb is modelled as wrapping the string in double
  quotes (exact for strings that need no escaping).
* Go maps are embedded as association lists with `List.lookup`
  (keys of a Go map are unique, so the first match is the match).
-/

namespace ImageApi

/-- Embedding of Go `strings.Split(s, sep)` for a one-character separator,
on character lists: `splitOnChar c l` cuts `l` at every occurrence of `c`.
Like Go's `strings.Split`, the result is never empty and splitting the
empty string yields `[[]]`. -/
def splitOnChar (c : Char) : List Char → List (List Char)
  | [] => [[]]
  | x :: xs =>
    match splitOnChar c xs with
    | [] => [[]]
    | y :: ys => if x = c then [] :: y :: ys else (x :: y) :: ys

/-- Inverse of `splitOnChar`: re-joins the pieces with the separator. -/
def unsplitChar (c : Char) : List (List Char) → List Char
  | [] => []
  | [x] => x
  | x :: y :: ys => x ++ c :: unsplitChar c (y :: ys)

/-- Embedding of Go `strings.Split(s, sep)` (single-character separator)
on `String`. -/
def stringsSplit (s : String) (sep : Char) : List String :=
  (splitOnChar sep s.data).map String.mk

/-- Embedding of Go `strings.Contains(s, string(c))` for a one-character
needle. -/
def containsChar (s : String) (c : Char) : Bool :=
  s.data.contains c

/-- Modelled from the spec: the tag/digest-stripping convention of the
vendored docker reference library (`docker.ParseRepositoryTag`), whose
source is not under `src/`.  Per the spec: "if the remainder contains an
`@` it denotes a digest ref; otherwise a trailing `:token` after the last
`/`-delimited segment denotes a tag ref. (If no ref is present, `ref` is
empty.)" -/
def parseRepositoryTag (repos : String) : String × String :=
  if repos.data.contains '@' then
    (String.mk (repos.data.takeWhile (fun c => c != '@')),
     String.mk ((repos.data.dropWhile (fun c => c != '@')).drop 1))
  else if repos.data.contains ':' then
    let revTag := repos.data.reverse.takeWhile (fun c => c != ':')
    if revTag.contains '/' then (repos, "")
    else (String.mk ((repos.data.reverse.drop (revTag.length + 1)).reverse),
          String.mk revTag.reverse)
  else (repos, "")

/-- The `InvalidSpec` error message of `SplitOpenShiftPullSpec`
(`fmt.Errorf("the docker pull spec %q must be two or three segments
separated by slashes", spec)`, with `%q` modelled as quote-wrapping). -/
def invalidSpecMsg (spec : String) : String :=
  "the docker pull spec \"" ++ spec ++ "\" must be two or three segments separated by slashes"

/-- Embedding of `SplitOpenShiftPullSpec` (helper.go).  Note that the Go
code reassigns `spec` to the ref-stripped remainder before splitting, so
the error message quotes the remainder, not the original argument. -/
def SplitOpenShiftPullSpec (spec : String) :
    Except String (String × String × String × String) :=
  let stripped := parseRepositoryTag spec
  let rest := stripped.1
  let ref := stripped.2
  match stringsSplit rest '/' with
  | [a, b] => Except.ok ("", a, b, ref)
  | [a, b, c] => Except.ok (a, b, c, ref)
  | [a] =>
    if a.length = 0 then Except.error (invalidSpecMsg rest)
    else Except.ok ("", "", a, ref)
  | _ => Except.error (invalidSpecMsg rest)

/-- Embedding of `SplitDockerPullSpec` (helper.go): delegates to
`SplitOpenShiftPullSpec`, propagating an error unchanged. -/
def SplitDockerPullSpec (spec : String) :
    Except String (String × String × String × String) :=
  match SplitOpenShiftPullSpec spec with
  | Except.error e => Except.error e
  | Except.ok v => Except.ok v

/-- Embedding of `IsPullSpec` (helper.go). -/
def IsPullSpec (spec : String) : Bool :=
  match SplitDockerPullSpec spec with
  | Except.error _ => false
  | Except.ok _ => true

/-- Embedding of the constant `DockerDefaultNamespace` (helper.go). -/
def DockerDefaultNamespace : String := "library"

/-- The ref-rendering step at the top of `JoinDockerPullSpec`: a non-empty
ref renders as `"@" ++ ref` when it contains a colon (v2 digest) and as
`":" ++ ref` otherwise. -/
def renderRef (ref : String) : String :=
  if ref.length ≠ 0 then
    if containsChar ref ':' then "@" ++ ref else ":" ++ ref
  else ref

/-- Embedding of `JoinDockerPullSpec` (helper.go).  The Go code first
rewrites `ref` via the rendering step, then returns `name+ref` when both
namespace and registry are empty, substitutes `DockerDefaultNamespace`
when only the namespace is empty, and joins the remaining components with
slashes. -/
def JoinDockerPullSpec (registry nspace name ref : String) : String :=
  let ref := renderRef ref
  if nspace.length = 0 ∧ registry.length = 0 then name ++ ref
  else
    let nspace := if nspace.length = 0 then DockerDefaultNamespace else nspace
    if registry.length = 0 then nspace ++ "/" ++ name ++ ref
    else registry ++ "/" ++ nspace ++ "/" ++ name ++ ref

/-- A JSON value, the model of what Go's `encoding/json` decodes.
Numbers are modelled as integers, which covers every numeric field of the
manifest schema (`size` is an int64). -/
inductive Json where
  | null : Json
  | bool (b : Bool) : Json
  | num (n : Int) : Json
  | str (s : String) : Json
  | arr (elems : List Json) : Json
  | obj (fields : List (String × Json)) : Json
deriving Inhabited

/-- JSON whitespace. -/
def isWsChar (c : Char) : Bool :=
  c == ' ' || c == '\n' || c == '\t' || c == '\r'

def skipWs (cs : List Char) : List Char :=
  cs.dropWhile isWsChar

def hexVal (c : Char) : Option Nat :=
  if c.isDigit then some (c.toNat - '0'.toNat)
  else if 'a' ≤ c ∧ c ≤ 'f' then some (c.toNat - 'a'.toNat + 10)
  else if 'A' ≤ c ∧ c ≤ 'F' then some (c.toNat - 'A'.toNat + 10)
  else none

/-- One JSON string escape sequence (the characters after the backslash). -/
def unescape : List Char → Option (Char × List Char)
  | [] => none
  | c :: rest =>
    if c = '"' then some ('"', rest)
    else if c = '\\' then some ('\\', rest)
    else if c = '/' then some ('/', rest)
    else if c = 'n' then some ('\n', rest)
    else if c = 't' then some ('\t', rest)
    else if c = 'r' then some ('\r', rest)
    else if c = 'b' then some (Char.ofNat 8, rest)
    else if c = 'f' then some (Char.ofNat 12, rest)
    else if c = 'u' then
      match rest with
      | h1 :: h2 :: h3 :: h4 :: r =>
        match hexVal h1, hexVal h2, hexVal h3, hexVal h4 with
        | some a, some b, some c2, some d =>
          some (Char.ofNat (((a * 16 + b) * 16 + c2) * 16 + d), r)
        | _, _, _, _ => none
      | _ => none
    else none

/-- Body of a JSON string after the opening quote, up to and consuming the
closing quote.  Fuelled; `input length + 1` fuel always suffices. -/
def parseStringBody : Nat → List Char → Option (List Char × List Char)
  | 0, _ => none
  | _, [] => none
  | fuel + 1, c :: rest =>
    if c = '"' then some ([], rest)
    else if c = '\\' then
      match unescape rest with
      | none => none
      | some (ch, r) =>
        match parseStringBody fuel r with
        | none => none
        | some (content, r2) => some (ch :: content, r2)
    else
      match parseStringBody fuel rest with
      | none => none
      | some (content, r2) => some (c :: content, r2)

def digitsToNat (ds : List Char) : Nat :=
  ds.foldl (fun n c => n * 10 + (c.toNat - '0'.toNat)) 0

/-- A JSON number.  The model accepts integers only (a fraction or an
exponent is rejected); every numeric field of the manifest schema is
integral. -/
def parseNumber (cs : List Char) : Option (Int × List Char) :=
  let stripped := match cs with
    | '-' :: r => (true, r)
    | _ => (false, cs)
  let ds := stripped.2.takeWhile Char.isDigit
  let rest := stripped.2.dropWhile Char.isDigit
  if ds.isEmpty then none
  else
    match rest with
    | '.' :: _ => none
    | 'e' :: _ => none
    | 'E' :: _ => none
    | _ =>
      some (if stripped.1 then -(digitsToNat ds : Int) else (digitsToNat ds : Int), rest)

mutual

/-- A JSON value.  Fuelled; `input length + 1` fuel always suffices. -/
def parseJsonValue : Nat → List Char → Option (Json × List Char)
  | 0, _ => none
  | fuel + 1, cs =>
    match skipWs cs with
    | [] => none
    | c :: rest =>
      if c = '\x7b' then
        match skipWs rest with
        | '\x7d' :: r2 => some (Json.obj [], r2)
        | _ =>
          match parseJsonMembers fuel rest with
          | none => none
          | some (fields, r2) => some (Json.obj fields, r2)
      else if c = '[' then
        match skipWs rest with
        | ']' :: r2 => some (Json.arr [], r2)
        | _ =>
          match parseJsonElems fuel rest with
          | none => none
          | some (elems, r2) => some (Json.arr elems, r2)
      else if c = '"' then
        match parseStringBody (rest.length + 1) rest with
        | none => none
        | some (content, r2) => some (Json.str (String.mk content), r2)
      else if c = 'n' then
        match rest with
        | 'u' :: 'l' :: 'l' :: r2 => some (Json.null, r2)
        | _ => none
      else if c = 't' then
        match rest with
        | 'r' :: 'u' :: 'e' :: r2 => some (Json.bool true, r2)
        | _ => none
      else if c = 'f' then
        match rest with
        | 'a' :: 'l' :: 's' :: 'e' :: r2 => some (Json.bool false, r2)
        | _ => none
      else
        match parseNumber (c :: rest) with
        | none => none
        | some (n, r2) => some (Json.num n, r2)

/-- The members of a JSON object after the opening brace (at least one),
up to and consuming the closing brace. -/
def parseJsonMembers : Nat → List Char → Option (List (String × Json) × List Char)
  | 0, _ => none
  | fuel + 1, cs =>
    match skipWs cs with
    | '"' :: rest =>
      match parseStringBody (rest.length + 1) rest with
      | none => none
      | some (key, r2) =>
        match skipWs r2 with
        | ':' :: r3 =>
          match parseJsonValue fuel r3 with
          | none => none
          | some (v, r4) =>
            match skipWs r4 with
            | ',' :: r5 =>
              match parseJsonMembers fuel r5 with
              | none => none
              | some (fields, r6) => some ((String.mk key, v) :: fields, r6)
            | '\x7d' :: r5 => some ([(String.mk key, v)], r5)
            | _ => none
        | _ => none
    | _ => none

/-- The elements of a JSON array after the opening bracket (at least one),
up to and consuming the closing bracket. -/
def parseJsonElems : Nat → List Char → Option (List Json × List Char)
  | 0, _ => none
  | fuel + 1, cs =>
    match parseJsonValue fuel cs with
    | none => none
    | some (v, r) =>
      match skipWs r with
      | ',' :: r2 =>
        match parseJsonElems fuel r2 with
        | none => none
        | some (elems, r3) => some (v :: elems, r3)
      | ']' :: r2 => some ([v], r2)
      | _ => none

end

/-- A complete JSON document: one value with only whitespace after it
(Go's `json.Unmarshal` rejects trailing data). -/
def jsonParse (s : String) : Option Json :=
  match parseJsonValue (s.data.length + 1) s.data with
  | none => none
  | some (v, rest) => if (skipWs rest).isEmpty then some v else none

def asciiLower (c : Char) : Char :=
  if 'A' ≤ c ∧ c ≤ 'Z' then Char.ofNat (c.toNat + 32) else c

def asciiLowerStr (s : String) : String :=
  String.mk (s.data.map asciiLower)

/-- Go's `encoding/json` field matching: an incoming object key is matched
to a struct field case-insensitively (ASCII model), and when several keys
match the same field the last one wins. -/
def lookupJsonField (fields : List (String × Json)) (key : String) : Option Json :=
  fields.foldl
    (fun acc kv => if asciiLowerStr kv.1 = asciiLowerStr key then some kv.2 else acc)
    none

/-- Modelled from the spec: one entry of the manifest `history` array
(type `DockerHistory` of the image api, not under `src/`): it "carries a
JSON-encoded string field" under the key `v1Compatibility`. -/
structure DockerHistory where
  DockerV1Compatibility : String

/-- Modelled from the spec: the decoded manifest (type
`DockerImageManifest` of the image api, not under `src/`): "an object with
a `history` array"; only the history is consumed by the extractor. -/
structure DockerImageManifest where
  History : List DockerHistory

/-- Modelled from the spec: the legacy compatibility record (type
`DockerV1CompatibilityImage`, not under `src/`), "a compatibility object
with keys: id, parent, comment, created, container, containerConfig,
dockerVersion, author, config, architecture, size".  `Created` is kept as
an uninterpreted string and the two config sub-objects as raw JSON values, since
the spec does not constrain their contents. -/
structure DockerV1CompatibilityImage where
  ID : String
  Parent : String
  Comment : String
  Created : String
  Container : String
  ContainerConfig : Json
  DockerVersion : String
  Author : String
  Config : Json
  Architecture : String
  Size : Int

/-- Modelled from the spec: the structured metadata record of an image
(type `DockerImage`, not under `src/`), with the same eleven fields the
extractor assigns. -/
structure DockerImageMetadata where
  ID : String
  Parent : String
  Comment : String
  Created : String
  Container : String
  ContainerConfig : Json
  DockerVersion : String
  Author : String
  Config : Json
  Architecture : String
  Size : Int

/-- Modelled from the spec: an `Image` (not under `src/`) "holds a raw
manifest string (`DockerImageManifest`, raw JSON, may be empty) and a
structured metadata record (`DockerImageMetadata`)". -/
structure Image where
  DockerImageManifest : String
  DockerImageMetadata : DockerImageMetadata

/-- Decode a string-typed struct field from a JSON object: a missing key
or `null` leaves the zero value, a JSON string is taken as-is, anything
else is a decode error (as in Go's `encoding/json`). -/
def decodeStringField (fields : List (String × Json)) (key : String) : Except String String :=
  match lookupJsonField fields key with
  | none => Except.ok ""
  | some Json.null => Except.ok ""
  | some (Json.str s) => Except.ok s
  | some _ => Except.error ("json: cannot unmarshal value into field " ++ key)

/-- Decode an integer-typed struct field (`size`): missing or `null`
leaves 0, a number is taken, anything else is a decode error. -/
def decodeIntField (fields : List (String × Json)) (key : String) : Except String Int :=
  match lookupJsonField fields key with
  | none => Except.ok 0
  | some Json.null => Except.ok 0
  | some (Json.num n) => Except.ok n
  | some _ => Except.error ("json: cannot unmarshal value into field " ++ key)

/-- Decode an object-typed struct field (`containerConfig`, `config`),
kept as a raw JSON value: missing or `null` leaves the zero value, an
object is taken, anything else is a decode error. -/
def decodeObjField (fields : List (String × Json)) (key : String) : Except String Json :=
  match lookupJsonField fields key with
  | none => Except.ok Json.null
  | some Json.null => Except.ok Json.null
  | some (Json.obj o) => Except.ok (Json.obj o)
  | some _ => Except.error ("json: cannot unmarshal value into field " ++ key)

def decodeHistoryEntry (j : Json) : Except String DockerHistory :=
  match j with
  | Json.null => Except.ok ⟨""⟩
  | Json.obj fields =>
    match decodeStringField fields "v1Compatibility" with
    | Except.error e => Except.error e
    | Except.ok s => Except.ok ⟨s⟩
  | _ => Except.error "json: cannot unmarshal value into DockerHistory"

def decodeHistoryList : List Json → Except String (List DockerHistory)
  | [] => Except.ok []
  | j :: js =>
    match decodeHistoryEntry j with
    | Except.error e => Except.error e
    | Except.ok h =>
      match decodeHistoryList js with
      | Except.error e => Except.error e
      | Except.ok hs => Except.ok (h :: hs)

def decodeManifest (j : Json) : Except String DockerImageManifest :=
  match j with
  | Json.null => Except.ok ⟨[]⟩
  | Json.obj fields =>
    match lookupJsonField fields "history" with
    | none => Except.ok ⟨[]⟩
    | some Json.null => Except.ok ⟨[]⟩
    | some (Json.arr items) =>
      match decodeHistoryList items with
      | Except.error e => Except.error e
      | Except.ok hs => Except.ok ⟨hs⟩
    | some _ => Except.error "json: cannot unmarshal value into field history"
  | _ => Except.error "json: cannot unmarshal value into DockerImageManifest"

def decodeV1Compatibility (j : Json) : Except String DockerV1CompatibilityImage :=
  match j with
  | Json.null => Except.ok ⟨"", "", "", "", "", Json.null, "", "", Json.null, "", 0⟩
  | Json.obj fields => do
    let id ← decodeStringField fields "id"
    let parent ← decodeStringField fields "parent"
    let comment ← decodeStringField fields "comment"
    let created ← decodeStringField fields "created"
    let container ← decodeStringField fields "container"
    let containerConfig ← decodeObjField fields "containerConfig"
    let dockerVersion ← decodeStringField fields "dockerVersion"
    let author ← decodeStringField fields "author"
    let config ← decodeObjField fields "config"
    let architecture ← decodeStringField fields "architecture"
    let size ← decodeIntField fields "size"
    Except.ok ⟨id, parent, comment, created, container, containerConfig,
      dockerVersion, author, config, architecture, size⟩
  | _ => Except.error "json: cannot unmarshal value into DockerV1CompatibilityImage"

/-- Model of `json.Unmarshal([]byte(s), &manifest)` for the manifest
schema: parse the document, then decode it field-wise. -/
def jsonUnmarshalManifest (s : String) : Except String DockerImageManifest :=
  match jsonParse s with
  | none => Except.error "invalid JSON input"
  | some j => decodeManifest j

/-- Model of `json.Unmarshal([]byte(s), &v1Metadata)` for the
compatibility record. -/
def jsonUnmarshalV1Compatibility (s : String) : Except String DockerV1CompatibilityImage :=
  match jsonParse s with
  | none => Except.error "invalid JSON input"
  | some j => decodeV1Compatibility j

/-- Embedding of `ImageWithMetadata` (helper.go).  The Go code saves the
raw manifest into `manifestData`, clears the manifest field of its local
copy of the image, decodes the manifest, returns the cleared copy when the
history is empty, and otherwise decodes `history[0]`'s compatibility blob
and assigns its eleven fields onto the copy's metadata. -/
def ImageWithMetadata (image : Image) : Except String Image :=
  if image.DockerImageManifest.length = 0 then Except.ok image
  else
    let manifestData := image.DockerImageManifest
    let image := { image with DockerImageManifest := "" }
    match jsonUnmarshalManifest manifestData with
    | Except.error e => Except.error e
    | Except.ok manifest =>
      match manifest.History with
      | [] => Except.ok image
      | h0 :: _ =>
        match jsonUnmarshalV1Compatibility h0.DockerV1Compatibility with
        | Except.error e => Except.error e
        | Except.ok v1 =>
          Except.ok { image with
            DockerImageMetadata :=
              { ID := v1.ID, Parent := v1.Parent, Comment := v1.Comment,
                Created := v1.Created, Container := v1.Container,
                ContainerConfig := v1.ContainerConfig,
                DockerVersion := v1.DockerVersion, Author := v1.Author,
                Config := v1.Config, Architecture := v1.Architecture,
                Size := v1.Size } }

/-- Modelled from the spec: a `TagEvent` (not under `src/`) is "an image
reference plus event metadata (creation time, generation) — uninterpreted by this
core beyond being the most recent item". -/
structure TagEvent where
  Created : String
  DockerImageReference : String
  Generation : Int

/-- Modelled from the spec: a `TagEventList` (not under `src/`) is an
"ordered sequence of TagEvent, index 0 = most recent". -/
structure TagEventList where
  Items : List TagEvent

/-- Modelled from the spec: the status part of an `ImageRepository`:
`Status.Tags` maps a tag name to a `TagEventList`. -/
structure ImageRepositoryStatus where
  Tags : List (String × TagEventList)

/-- Modelled from the spec: an `ImageRepository` (not under `src/`) with
its namespace and name (used in the failure messages), the declared
`Tags` map and the `Status.Tags` history map. -/
structure ImageRepository where
  Namespace : String
  Name : String
  Tags : List (String × String)
  Status : ImageRepositoryStatus

/-- Failure message of `LatestTaggedImage` for a tag missing from
`repo.Tags` (`%q` modelled as quote-wrapping). -/
def tagNotFoundMsg (ns name tag : String) : String :=
  "image repository " ++ ns ++ "/" ++ name ++ ": tag \"" ++ tag ++ "\" not found"

/-- Failure message for a tag missing from `repo.Status.Tags`. -/
def tagHistoryMissingMsg (ns name tag : String) : String :=
  "image repository " ++ ns ++ "/" ++ name ++ ": tag \"" ++ tag ++ "\" not found in tag history"

/-- Failure message for a tag whose history has no items. -/
def tagHistoryEmptyMsg (ns name tag : String) : String :=
  "image repository " ++ ns ++ "/" ++ name ++ ": tag \"" ++ tag ++ "\" has 0 history items"

/-- Embedding of `LatestTaggedImage` (helper.go). -/
def LatestTaggedImage (repo : ImageRepository) (tag : String) : Except String TagEvent :=
  match repo.Tags.lookup tag with
  | none => Except.error (tagNotFoundMsg repo.Namespace repo.Name tag)
  | some _ =>
    match repo.Status.Tags.lookup tag with
    | none => Except.error (tagHistoryMissingMsg repo.Namespace repo.Name tag)
    | some tagHistory =>
      match tagHistory.Items with
      | [] => Except.error (tagHistoryEmptyMsg repo.Namespace repo.Name tag)
      | e :: _ => Except.ok e


/-- The string `sub` occurs contiguously inside `msg` (the sense in which
an error message "includes" a component). -/
def strContains (sub msg : String) : Prop :=
  sub.data <:+: msg.data

instance (sub msg : String) : Decidable (strContains sub msg) :=
  List.decidableInfix sub.data msg.data

/-- An all-zero metadata record (the Go zero value of the struct). -/
def zeroMetadata : DockerImageMetadata :=
  ⟨"", "", "", "", "", Json.null, "", "", Json.null, "", 0⟩

/-- The spec's example manifest
`history: [\x7b "v1Compatibility": "\x7b\"Id\":\"abc\"\x7d" \x7d]`. -/
def exampleManifest : String :=
  "\x7b\"history\":[\x7b\"v1Compatibility\":\"\x7b\\\"Id\\\":\\\"abc\\\"\x7d\"\x7d]\x7d"

/-- A repository with one declared tag `latest` whose history holds two
events, the most recent first. -/
def exampleRepo : ImageRepository :=
  ⟨"projA", "repoB", [("latest", "ref")],
    ⟨[("latest", ⟨[⟨"t1", "imgA", 1⟩, ⟨"t2", "imgB", 2⟩]⟩)]⟩⟩

theorem splitOnChar_ne_nil (c : Char) (l : List Char) : splitOnChar c l ≠ [] := by
  cases l with
  | nil => simp [splitOnChar]
  | cons x xs =>
    simp only [splitOnChar]
    cases h : splitOnChar c xs with
    | nil => simp
    | cons y ys => dsimp only; split <;> simp

theorem unsplitChar_splitOnChar (c : Char) (l : List Char) :
    unsplitChar c (splitOnChar c l) = l := by
  induction l with
  | nil => rfl
  | cons x xs ih =>
    simp only [splitOnChar]
    cases h : splitOnChar c xs with
    | nil => exact absurd h (splitOnChar_ne_nil c xs)
    | cons y ys =>
      rw [h] at ih
      dsimp only
      by_cases hx : x = c
      · subst hx
        simp only [if_pos rfl, unsplitChar]
        simpa using ih
      · rw [if_neg hx]
        cases ys with
        | nil => simp only [unsplitChar] at ih ⊢; rw [ih]
        | cons z zs =>
          simp only [unsplitChar] at ih ⊢
          rw [List.cons_append, ih]

example : SplitOpenShiftPullSpec "reg/ns/name@sha256:deadbeef" =
    Except.ok ("reg", "ns", "name", "sha256:deadbeef") := rfl

example : SplitOpenShiftPullSpec "name:tag" = Except.ok ("", "", "name", "tag") := rfl

example : SplitOpenShiftPullSpec "a/" = Except.ok ("", "a", "", "") := rfl

example : SplitOpenShiftPullSpec "a//b" = Except.ok ("a", "", "b", "") := rfl

example : SplitOpenShiftPullSpec "" = Except.error (invalidSpecMsg "") := rfl

example : SplitOpenShiftPullSpec "a/b/c/d:tag" =
    Except.error (invalidSpecMsg "a/b/c/d") := rfl

example : JoinDockerPullSpec "host:5000" "" "name" "" = "host:5000/library/name" := rfl

example : JoinDockerPullSpec "" "" "name" "sha256:x" = "name@sha256:x" := rfl

example : jsonParse "\x7b\"history\":[]\x7d" =
    some (Json.obj [("history", Json.arr [])]) := rfl

example : jsonParse " \x7b \"a\" : \"x\\\"y\" , \"n\" : -12 \x7d " =
    some (Json.obj [("a", Json.str "x\"y"), ("n", Json.num (-12))]) := rfl

theorem string_length_zero_iff (s : String) : s.length = 0 ↔ s = "" := by
  cases s with
  | mk l =>
    cases l with
    | nil => simp
    | cons c cs =>
      constructor
      · intro h
        simp [String.length] at h
      · intro h
        rw [String.ext_iff] at h
        simp at h

theorem stringsSplit_ne_nil (s : String) (sep : Char) : stringsSplit s sep ≠ [] := by
  intro h
  exact splitOnChar_ne_nil sep s.data (List.map_eq_nil_iff.mp h)

theorem data_eq_unsplit_of_stringsSplit (s : String) (sep : Char) (parts : List String)
    (h : stringsSplit s sep = parts) :
    s.data = unsplitChar sep (parts.map String.data) := by
  subst h
  simp only [stringsSplit, List.map_map]
  have hid : (String.data ∘ String.mk) = id := rfl
  rw [hid, List.map_id, unsplitChar_splitOnChar]

theorem strContains_append (a b c : String) : strContains b (a ++ b ++ c) :=
  ⟨a.data, c.data, by simp [String.data_append]⟩

theorem strContains_of_eq (msg a b c : String) (h : msg = a ++ b ++ c) :
    strContains b msg :=
  h ▸ strContains_append a b c

/-- Unfolding of `SplitOpenShiftPullSpec` to its segment-count match. -/
theorem splitOpenShiftPullSpec_eq (s : String) :
    SplitOpenShiftPullSpec s =
      match stringsSplit (parseRepositoryTag s).1 '/' with
      | [a, b] => Except.ok ("", a, b, (parseRepositoryTag s).2)
      | [a, b, c] => Except.ok (a, b, c, (parseRepositoryTag s).2)
      | [a] =>
        if a.length = 0 then Except.error (invalidSpecMsg (parseRepositoryTag s).1)
        else Except.ok ("", "", a, (parseRepositoryTag s).2)
      | _ => Except.error (invalidSpecMsg (parseRepositoryTag s).1) := rfl

/-- C1: for every input string, `SplitOpenShiftPullSpec` first strips the
trailing ref (`parseRepositoryTag`) and then applies the segment-count
policy to the remainder split on `/`: one non-empty segment yields
`("", "", name)`, two segments yield `("", seg0, seg1)`, three segments
yield `(seg0, seg1, seg2)`, an empty one-segment remainder or any other
segment count fails with the `InvalidSpec` error, and in particular
`Parse ""` and `Parse "a/b/c/d"` both fail. -/
theorem splitOpenShiftPullSpec_segment_policy (s : String) :
    (∀ a, stringsSplit (parseRepositoryTag s).1 '/' = [a] → a ≠ "" →
      SplitOpenShiftPullSpec s = Except.ok ("", "", a, (parseRepositoryTag s).2)) ∧
    (stringsSplit (parseRepositoryTag s).1 '/' = [""] →
      SplitOpenShiftPullSpec s = Except.error (invalidSpecMsg (parseRepositoryTag s).1)) ∧
    (∀ a b, stringsSplit (parseRepositoryTag s).1 '/' = [a, b] →
      SplitOpenShiftPullSpec s = Except.ok ("", a, b, (parseRepositoryTag s).2)) ∧
    (∀ a b c, stringsSplit (parseRepositoryTag s).1 '/' = [a, b, c] →
      SplitOpenShiftPullSpec s = Except.ok (a, b, c, (parseRepositoryTag s).2)) ∧
    ((stringsSplit (parseRepositoryTag s).1 '/').length ≠ 1 →
      (stringsSplit (parseRepositoryTag s).1 '/').length ≠ 2 →
      (stringsSplit (parseRepositoryTag s).1 '/').length ≠ 3 →
      SplitOpenShiftPullSpec s = Except.error (invalidSpecMsg (parseRepositoryTag s).1)) ∧
    SplitOpenShiftPullSpec "" = Except.error (invalidSpecMsg "") ∧
    SplitOpenShiftPullSpec "a/b/c/d" = Except.error (invalidSpecMsg "a/b/c/d") := by
  refine ⟨?_, ?_, ?_, ?_, ?_, rfl, rfl⟩
  · intro a h ha
    rw [splitOpenShiftPullSpec_eq, h]
    dsimp only
    rw [if_neg (fun hz => ha ((string_length_zero_iff a).mp hz))]
  · intro h
    rw [splitOpenShiftPullSpec_eq, h]
    rfl
  · intro a b h
    rw [splitOpenShiftPullSpec_eq, h]
  · intro a b c h
    rw [splitOpenShiftPullSpec_eq, h]
  · intro h1 h2 h3
    rw [splitOpenShiftPullSpec_eq]
    cases harr : stringsSplit (parseRepositoryTag s).1 '/' with
    | nil => exact absurd harr (stringsSplit_ne_nil _ _)
    | cons a tl =>
      cases tl with
      | nil => rw [harr] at h1; simp at h1
      | cons b tl2 =>
        cases tl2 with
        | nil => rw [harr] at h2; simp at h2
        | cons c tl3 =>
          cases tl3 with
          | nil => rw [harr] at h3; simp at h3
          | cons d tl4 => rfl

/-- C1 witness: apply the policy at concrete inputs. -/
theorem splitOpenShiftPullSpec_segment_policy_witness :
    SplitOpenShiftPullSpec "ns/name" = Except.ok ("", "ns", "name", "") :=
  (splitOpenShiftPullSpec_segment_policy "ns/name").2.2.1 "ns" "name" rfl

/-- C5 counterexample: `Parse "a/"` succeeds with an empty name, so a
successful parse does not guarantee a non-empty name. -/
theorem splitOpenShiftPullSpec_name_nonempty_counterexample :
    ¬ (∀ s r ns nm ref : String,
        SplitOpenShiftPullSpec s = Except.ok (r, ns, nm, ref) → nm ≠ "") :=
  fun h => h "a/" "" "a" "" "" rfl rfl

/-- C5 amended: the name component is non-empty whenever the ref-stripped
remainder has exactly one `/`-segment (the only case where the code checks
for emptiness); a 2- or 3-segment remainder with a trailing empty segment
parses successfully with an empty name. -/
theorem splitOpenShiftPullSpec_name_nonempty (s r ns nm ref : String)
    (hok : SplitOpenShiftPullSpec s = Except.ok (r, ns, nm, ref))
    (hlen : (stringsSplit (parseRepositoryTag s).1 '/').length = 1) : nm ≠ "" := by
  rw [splitOpenShiftPullSpec_eq] at hok
  cases harr : stringsSplit (parseRepositoryTag s).1 '/' with
  | nil => exact absurd harr (stringsSplit_ne_nil _ _)
  | cons a tl =>
    rw [harr] at hok hlen
    cases tl with
    | nil =>
      dsimp only at hok
      by_cases hz : a.length = 0
      · rw [if_pos hz] at hok
        exact Except.noConfusion hok
      · rw [if_neg hz] at hok
        simp only [Except.ok.injEq, Prod.mk.injEq] at hok
        obtain ⟨-, -, h3, -⟩ := hok
        subst h3
        exact fun he => hz ((string_length_zero_iff a).mpr he)
    | cons b tl2 => simp at hlen

/-- C5 witness. -/
theorem splitOpenShiftPullSpec_name_nonempty_witness : ("name" : String) ≠ "" :=
  splitOpenShiftPullSpec_name_nonempty "name:tag" "" "" "name" "tag" rfl rfl

/-- C6 counterexample: `Parse "a//b"` succeeds with a non-empty registry
and an empty namespace. -/
theorem splitOpenShiftPullSpec_registry_namespace_counterexample :
    ¬ (∀ s r ns nm ref : String,
        SplitOpenShiftPullSpec s = Except.ok (r, ns, nm, ref) →
        ¬(r ≠ "" ∧ ns = "")) :=
  fun h => h "a//b" "a" "" "b" "" rfl ⟨by decide, rfl⟩

/-- C6 amended: a successful parse never combines a non-empty registry
with an empty namespace provided the ref-stripped remainder has no empty
`/`-segment; an empty middle segment (e.g. `"a//b"`) does produce that
combination. -/
theorem splitOpenShiftPullSpec_registry_namespace (s r ns nm ref : String)
    (hok : SplitOpenShiftPullSpec s = Except.ok (r, ns, nm, ref))
    (hne : ("" : String) ∉ stringsSplit (parseRepositoryTag s).1 '/')
    (hr : r ≠ "") : ns ≠ "" := by
  rw [splitOpenShiftPullSpec_eq] at hok
  cases harr : stringsSplit (parseRepositoryTag s).1 '/' with
  | nil => exact absurd harr (stringsSplit_ne_nil _ _)
  | cons a tl =>
    rw [harr] at hok hne
    cases tl with
    | nil =>
      dsimp only at hok
      by_cases hz : a.length = 0
      · rw [if_pos hz] at hok
        exact Except.noConfusion hok
      · rw [if_neg hz] at hok
        simp only [Except.ok.injEq, Prod.mk.injEq] at hok
        exact absurd hok.1.symm hr
    | cons b tl2 =>
      cases tl2 with
      | nil =>
        simp only [Except.ok.injEq, Prod.mk.injEq] at hok
        exact absurd hok.1.symm hr
      | cons c tl3 =>
        cases tl3 with
        | nil =>
          simp only [Except.ok.injEq, Prod.mk.injEq] at hok
          obtain ⟨-, h2, -⟩ := hok
          subst h2
          intro hns
          subst hns
          simp at hne
        | cons d tl4 => exact Except.noConfusion hok

/-- C6 witness. -/
theorem splitOpenShiftPullSpec_registry_namespace_witness : ("ns" : String) ≠ "" :=
  splitOpenShiftPullSpec_registry_namespace "reg/ns/name" "reg" "ns" "name" "" rfl
    (by decide) (by decide)

set_option maxRecDepth 8192 in
/-- C7 counterexample: `Parse "a/b/c/d:tag"` fails, but the error message
quotes the ref-stripped remainder `a/b/c/d`, not the original argument
`a/b/c/d:tag`. -/
theorem splitOpenShiftPullSpec_error_message_counterexample :
    SplitOpenShiftPullSpec "a/b/c/d:tag" = Except.error (invalidSpecMsg "a/b/c/d") ∧
    ¬ strContains "a/b/c/d:tag" (invalidSpecMsg "a/b/c/d") :=
  ⟨rfl, by decide⟩

/-- C7 amended: every `InvalidSpec` error message includes the
ref-stripped remainder of the spec (the original argument with any tag or
digest suffix removed); it includes the full original argument exactly
when no ref was stripped. -/
theorem splitOpenShiftPullSpec_error_message (s msg : String)
    (h : SplitOpenShiftPullSpec s = Except.error msg) :
    strContains (parseRepositoryTag s).1 msg := by
  rw [splitOpenShiftPullSpec_eq] at h
  cases harr : stringsSplit (parseRepositoryTag s).1 '/' with
  | nil => exact absurd harr (stringsSplit_ne_nil _ _)
  | cons a tl =>
    rw [harr] at h
    cases tl with
    | nil =>
      dsimp only at h
      by_cases hz : a.length = 0
      · rw [if_pos hz] at h
        injection h with hmsg
        rw [← hmsg]
        exact strContains_append "the docker pull spec \"" _
          "\" must be two or three segments separated by slashes"
      · rw [if_neg hz] at h
        exact Except.noConfusion h
    | cons b tl2 =>
      cases tl2 with
      | nil => exact Except.noConfusion h
      | cons c tl3 =>
        cases tl3 with
        | nil => exact Except.noConfusion h
        | cons d tl4 =>
          injection h with hmsg
          rw [← hmsg]
          exact strContains_append "the docker pull spec \"" _
            "\" must be two or three segments separated by slashes"

/-- C7 witness. -/
theorem splitOpenShiftPullSpec_error_message_witness :
    strContains "a/b/c/d" (invalidSpecMsg "a/b/c/d") :=
  splitOpenShiftPullSpec_error_message "a/b/c/d:tag" (invalidSpecMsg "a/b/c/d") rfl

/-- C10: `SplitDockerPullSpec` returns exactly what
`SplitOpenShiftPullSpec` returns (pure delegation), and `IsPullSpec` is
`true` exactly when the parse succeeds. -/
theorem splitDockerPullSpec_delegates (s : String) :
    SplitDockerPullSpec s = SplitOpenShiftPullSpec s ∧
    (IsPullSpec s = true ↔ ∃ v, SplitOpenShiftPullSpec s = Except.ok v) := by
  constructor
  · cases h : SplitOpenShiftPullSpec s <;> simp [SplitDockerPullSpec, h]
  · cases h : SplitOpenShiftPullSpec s with
    | error e => simp [IsPullSpec, SplitDockerPullSpec, h]
    | ok v => simp [IsPullSpec, SplitDockerPullSpec, h]

/-- The formatter `JoinDockerPullSpec` always appends the rendered ref to
the joined segments. -/
theorem joinDockerPullSpec_renderRef (registry nspace name ref : String) :
    JoinDockerPullSpec registry nspace name ref =
      JoinDockerPullSpec registry nspace name "" ++ renderRef ref := by
  have h0 : renderRef "" = "" := rfl
  simp only [JoinDockerPullSpec, h0]
  by_cases h1 : nspace.length = 0 ∧ registry.length = 0
  · rw [if_pos h1, if_pos h1, String.append_empty]
  · rw [if_neg h1, if_neg h1]
    by_cases h2 : registry.length = 0
    · rw [if_pos h2, if_pos h2, String.append_empty]
    · rw [if_neg h2, if_neg h2, String.append_empty]

/-- C8: `JoinDockerPullSpec` renders a non-empty ref as `"@" ++ ref` when
the ref contains a colon and as `":" ++ ref` otherwise; when the namespace
is empty and the registry is not, it substitutes the default namespace
token `"library"`; `Join "host:5000" "" "name" ""` is
`"host:5000/library/name"`; and when both namespace and registry are
empty the result is the name followed by the rendered ref with no
separators. -/
theorem joinDockerPullSpec_policy (registry nspace name ref : String) :
    (ref ≠ "" → containsChar ref ':' = true →
      JoinDockerPullSpec registry nspace name ref =
        JoinDockerPullSpec registry nspace name "" ++ "@" ++ ref) ∧
    (ref ≠ "" → containsChar ref ':' = false →
      JoinDockerPullSpec registry nspace name ref =
        JoinDockerPullSpec registry nspace name "" ++ ":" ++ ref) ∧
    (nspace = "" → registry ≠ "" →
      JoinDockerPullSpec registry nspace name ref =
        registry ++ "/" ++ DockerDefaultNamespace ++ "/" ++ name ++ renderRef ref) ∧
    (nspace = "" → registry = "" →
      JoinDockerPullSpec registry nspace name ref = name ++ renderRef ref) ∧
    JoinDockerPullSpec "host:5000" "" "name" "" = "host:5000/library/name" := by
  refine ⟨?_, ?_, ?_, ?_, rfl⟩
  · intro h1 h2
    rw [joinDockerPullSpec_renderRef, String.append_assoc]
    have hlen : ref.length ≠ 0 := fun hz => h1 ((string_length_zero_iff ref).mp hz)
    congr 1
    simp [renderRef, hlen, h2]
  · intro h1 h2
    rw [joinDockerPullSpec_renderRef, String.append_assoc]
    have hlen : ref.length ≠ 0 := fun hz => h1 ((string_length_zero_iff ref).mp hz)
    congr 1
    simp [renderRef, hlen, h2]
  · intro h1 h2
    subst h1
    have hr : ¬ registry.length = 0 :=
      fun hz => h2 ((string_length_zero_iff registry).mp hz)
    simp [JoinDockerPullSpec, hr]
  · intro h1 h2
    subst h1
    subst h2
    simp [JoinDockerPullSpec]

/-- C8 witness. -/
theorem joinDockerPullSpec_policy_witness :
    JoinDockerPullSpec "" "" "name" "sha256:x" =
      JoinDockerPullSpec "" "" "name" "" ++ "@" ++ "sha256:x" :=
  (joinDockerPullSpec_policy "" "" "name" "sha256:x").1 (by decide) rfl

/-- C9 counterexample: `"/name"` is a 2-segment input with no registry,
parsed successfully, but composing `Join` with the parsed components
yields `"name"`, not the original string. -/
theorem joinSplit_roundTrip_counterexample :
    SplitOpenShiftPullSpec "/name" = Except.ok ("", "", "name", "") ∧
    stringsSplit (parseRepositoryTag "/name").1 '/' = ["", "name"] ∧
    JoinDockerPullSpec "" "" "name" "" = "name" ∧
    ("name" : String) ≠ "/name" :=
  ⟨rfl, rfl, rfl, by decide⟩

/-- C9 amended: composing `Join` with the components of a successful
`Parse` reproduces the original string provided the ref-stripped remainder
has no empty `/`-segment and the stripped ref re-renders to the original
suffix (true in particular for every tag ref and for digest refs that
contain a colon); inputs such as `"/name"` (empty first segment) are not
reproduced. -/
theorem joinSplit_roundTrip (s r ns nm ref : String)
    (hok : SplitOpenShiftPullSpec s = Except.ok (r, ns, nm, ref))
    (hs : s = (parseRepositoryTag s).1 ++ renderRef (parseRepositoryTag s).2)
    (hne : ("" : String) ∉ stringsSplit (parseRepositoryTag s).1 '/') :
    JoinDockerPullSpec r ns nm ref = s := by
  have hslash : ("/" : String).data = ['/'] := rfl
  rw [splitOpenShiftPullSpec_eq] at hok
  cases harr : stringsSplit (parseRepositoryTag s).1 '/' with
  | nil => exact absurd harr (stringsSplit_ne_nil _ _)
  | cons a tl =>
    have hdata := data_eq_unsplit_of_stringsSplit _ '/' _ harr
    rw [harr] at hok hne
    cases tl with
    | nil =>
      dsimp only at hok
      by_cases hz : a.length = 0
      · rw [if_pos hz] at hok
        exact Except.noConfusion hok
      · rw [if_neg hz] at hok
        simp only [Except.ok.injEq, Prod.mk.injEq] at hok
        obtain ⟨h1, h2, h3, h4⟩ := hok
        subst h1; subst h2; subst h3; subst h4
        simp only [List.map, unsplitChar] at hdata
        have hrest : (parseRepositoryTag s).1 = a := String.ext hdata
        conv_rhs => rw [hs, hrest]
        simp [JoinDockerPullSpec]
    | cons b tl2 =>
      cases tl2 with
      | nil =>
        simp only [Except.ok.injEq, Prod.mk.injEq] at hok
        obtain ⟨h1, h2, h3, h4⟩ := hok
        subst h1; subst h2; subst h3; subst h4
        have ha : a ≠ "" := by
          intro h
          apply hne
          rw [h]
          simp
        have hna : ¬ a.length = 0 := fun hz => ha ((string_length_zero_iff a).mp hz)
        simp only [List.map, unsplitChar] at hdata
        have hrest : (parseRepositoryTag s).1 = a ++ "/" ++ b := by
          apply String.ext
          rw [hdata]
          simp [String.data_append, hslash]
        conv_rhs => rw [hs, hrest]
        simp [JoinDockerPullSpec, hna, String.append_assoc]
      | cons c tl3 =>
        cases tl3 with
        | nil =>
          simp only [Except.ok.injEq, Prod.mk.injEq] at hok
          obtain ⟨h1, h2, h3, h4⟩ := hok
          subst h1; subst h2; subst h3; subst h4
          have ha : a ≠ "" := by
            intro h
            apply hne
            rw [h]
            simp
          have hb : b ≠ "" := by
            intro h
            apply hne
            rw [h]
            simp
          have hna : ¬ a.length = 0 := fun hz => ha ((string_length_zero_iff a).mp hz)
          have hnb : ¬ b.length = 0 := fun hz => hb ((string_length_zero_iff b).mp hz)
          simp only [List.map, unsplitChar] at hdata
          have hrest : (parseRepositoryTag s).1 = a ++ "/" ++ b ++ "/" ++ c := by
            apply String.ext
            rw [hdata]
            simp [String.data_append, hslash]
          conv_rhs => rw [hs, hrest]
          simp [JoinDockerPullSpec, hna, hnb, String.append_assoc]
        | cons d tl4 => exact Except.noConfusion hok

/-- C9 witness: the spec's own example
`Parse "reg/ns/name@sha256:deadbeef"` round-trips. -/
theorem joinSplit_roundTrip_witness :
    JoinDockerPullSpec "reg" "ns" "name" "sha256:deadbeef" =
      "reg/ns/name@sha256:deadbeef" :=
  joinSplit_roundTrip "reg/ns/name@sha256:deadbeef" "reg" "ns" "name" "sha256:deadbeef"
    rfl rfl (by decide)

theorem jsonUnmarshalManifest_empty :
    jsonUnmarshalManifest "" = Except.error "invalid JSON input" := rfl

/-- Unfolding of `ImageWithMetadata` to its decision chain. -/
theorem imageWithMetadata_eq (image : Image) :
    ImageWithMetadata image =
      if image.DockerImageManifest.length = 0 then Except.ok image
      else
        match jsonUnmarshalManifest image.DockerImageManifest with
        | Except.error e => Except.error e
        | Except.ok manifest =>
          match manifest.History with
          | [] => Except.ok { image with DockerImageManifest := "" }
          | h0 :: _ =>
            match jsonUnmarshalV1Compatibility h0.DockerV1Compatibility with
            | Except.error e => Except.error e
            | Except.ok v1 =>
              Except.ok { image with
                DockerImageManifest := "",
                DockerImageMetadata := ⟨v1.ID, v1.Parent, v1.Comment, v1.Created,
                  v1.Container, v1.ContainerConfig, v1.DockerVersion, v1.Author,
                  v1.Config, v1.Architecture, v1.Size⟩ } := rfl

/-- C2: whenever the raw manifest decodes to a manifest with a non-empty
history whose first entry's embedded compatibility blob decodes, the
extractor returns a copy whose eleven metadata fields equal the
corresponding fields of the compatibility record, with the raw manifest
field cleared and no error; in particular the spec's example manifest
(whose `history[0]` compatibility blob is `\x7b"Id":"abc"\x7d`) yields
metadata ID `"abc"`. -/
theorem imageWithMetadata_extracts :
    (∀ (image : Image) (m : DockerImageManifest) (h0 : DockerHistory)
        (hs : List DockerHistory) (v1 : DockerV1CompatibilityImage),
      jsonUnmarshalManifest image.DockerImageManifest = Except.ok m →
      m.History = h0 :: hs →
      jsonUnmarshalV1Compatibility h0.DockerV1Compatibility = Except.ok v1 →
      ImageWithMetadata image =
        Except.ok ⟨"", ⟨v1.ID, v1.Parent, v1.Comment, v1.Created, v1.Container,
          v1.ContainerConfig, v1.DockerVersion, v1.Author, v1.Config,
          v1.Architecture, v1.Size⟩⟩) ∧
    (∀ meta : DockerImageMetadata,
      ImageWithMetadata ⟨exampleManifest, meta⟩ =
        Except.ok ⟨"", ⟨"abc", "", "", "", "", Json.null, "", "", Json.null, "", 0⟩⟩) := by
  constructor
  · intro image m h0 hs v1 hm hh hv
    have hne : image.DockerImageManifest ≠ "" := by
      intro he
      rw [he, jsonUnmarshalManifest_empty] at hm
      exact Except.noConfusion hm
    have hlen : ¬ image.DockerImageManifest.length = 0 :=
      fun hz => hne ((string_length_zero_iff _).mp hz)
    rw [imageWithMetadata_eq, if_neg hlen, hm]
    dsimp only
    rw [hh]
    dsimp only
    rw [hv]
  · intro meta
    rfl

/-- C2 witness: the spec's example manifest. -/
theorem imageWithMetadata_extracts_witness :
    ImageWithMetadata ⟨exampleManifest, zeroMetadata⟩ =
      Except.ok ⟨"", ⟨"abc", "", "", "", "", Json.null, "", "", Json.null, "", 0⟩⟩ :=
  imageWithMetadata_extracts.1 ⟨exampleManifest, zeroMetadata⟩
    ⟨[⟨"\x7b\"Id\":\"abc\"\x7d"⟩]⟩ ⟨"\x7b\"Id\":\"abc\"\x7d"⟩ []
    ⟨"abc", "", "", "", "", Json.null, "", "", Json.null, "", 0⟩ rfl rfl rfl

/-- C4 counterexample: on a non-empty manifest that decodes to an empty
history, the extractor returns the image with the raw manifest field
cleared (the Go code clears it before decoding), not preserved as the
claim states. -/
theorem imageWithMetadata_emptyHistory_counterexample :
    jsonUnmarshalManifest "\x7b\"history\":[]\x7d" = Except.ok ⟨[]⟩ ∧
    ImageWithMetadata ⟨"\x7b\"history\":[]\x7d", zeroMetadata⟩ =
      Except.ok ⟨"", zeroMetadata⟩ ∧
    ("" : String) ≠ "\x7b\"history\":[]\x7d" :=
  ⟨rfl, rfl, by decide⟩

/-- C4 amended: on the empty-history branch the extractor returns the
input image with no error and with the raw manifest field cleared (the
clearing happens before decoding, so it applies to this branch too). -/
theorem imageWithMetadata_emptyHistory (image : Image) (m : DockerImageManifest)
    (hm : jsonUnmarshalManifest image.DockerImageManifest = Except.ok m)
    (hh : m.History = []) :
    ImageWithMetadata image = Except.ok { image with DockerImageManifest := "" } := by
  have hne : image.DockerImageManifest ≠ "" := by
    intro he
    rw [he, jsonUnmarshalManifest_empty] at hm
    exact Except.noConfusion hm
  have hlen : ¬ image.DockerImageManifest.length = 0 :=
    fun hz => hne ((string_length_zero_iff _).mp hz)
  rw [imageWithMetadata_eq, if_neg hlen, hm]
  dsimp only
  rw [hh]

/-- C4 witness. -/
theorem imageWithMetadata_emptyHistory_witness :
    ImageWithMetadata ⟨"\x7b\"history\":[]\x7d", zeroMetadata⟩ =
      Except.ok ⟨"", zeroMetadata⟩ :=
  imageWithMetadata_emptyHistory ⟨"\x7b\"history\":[]\x7d", zeroMetadata⟩ ⟨[]⟩ rfl rfl

/-- C3: `LatestTaggedImage` fails when the tag is absent from
`repo.Tags`, otherwise fails when it is absent from `repo.Status.Tags`,
otherwise fails when that tag's item sequence is empty, and otherwise
returns the entry at index 0 with no error; every failure message
includes the repository's namespace, its name, and the tag. -/
theorem latestTaggedImage_policy (repo : ImageRepository) (tag : String) :
    (repo.Tags.lookup tag = none →
      LatestTaggedImage repo tag =
        Except.error (tagNotFoundMsg repo.Namespace repo.Name tag)) ∧
    (∀ v, repo.Tags.lookup tag = some v → repo.Status.Tags.lookup tag = none →
      LatestTaggedImage repo tag =
        Except.error (tagHistoryMissingMsg repo.Namespace repo.Name tag)) ∧
    (∀ v hist, repo.Tags.lookup tag = some v →
      repo.Status.Tags.lookup tag = some hist → hist.Items = [] →
      LatestTaggedImage repo tag =
        Except.error (tagHistoryEmptyMsg repo.Namespace repo.Name tag)) ∧
    (∀ v hist e es, repo.Tags.lookup tag = some v →
      repo.Status.Tags.lookup tag = some hist → hist.Items = e :: es →
      LatestTaggedImage repo tag = Except.ok e) ∧
    (∀ msg, LatestTaggedImage repo tag = Except.error msg →
      strContains repo.Namespace msg ∧ strContains repo.Name msg ∧
        strContains tag msg) := by
  refine ⟨?_, ?_, ?_, ?_, ?_⟩
  · intro h
    simp [LatestTaggedImage, h]
  · intro v h1 h2
    simp [LatestTaggedImage, h1, h2]
  · intro v hist h1 h2 h3
    simp [LatestTaggedImage, h1, h2, h3]
  · intro v hist e es h1 h2 h3
    simp [LatestTaggedImage, h1, h2, h3]
  · intro msg hmsg
    cases h1 : repo.Tags.lookup tag with
    | none =>
      simp [LatestTaggedImage, h1] at hmsg
      rw [← hmsg]
      refine ⟨?_, ?_, ?_⟩
      · exact strContains_of_eq _ "image repository " repo.Namespace
          ("/" ++ repo.Name ++ ": tag \"" ++ tag ++ "\" not found")
          (by simp [tagNotFoundMsg, String.append_assoc])
      · exact strContains_of_eq _ ("image repository " ++ repo.Namespace ++ "/")
          repo.Name (": tag \"" ++ tag ++ "\" not found")
          (by simp [tagNotFoundMsg, String.append_assoc])
      · exact strContains_of_eq _
          ("image repository " ++ repo.Namespace ++ "/" ++ repo.Name ++ ": tag \"")
          tag "\" not found" (by simp [tagNotFoundMsg, String.append_assoc])
    | some v =>
      cases h2 : repo.Status.Tags.lookup tag with
      | none =>
        simp [LatestTaggedImage, h1, h2] at hmsg
        rw [← hmsg]
        refine ⟨?_, ?_, ?_⟩
        · exact strContains_of_eq _ "image repository " repo.Namespace
            ("/" ++ repo.Name ++ ": tag \"" ++ tag ++ "\" not found in tag history")
            (by simp [tagHistoryMissingMsg, String.append_assoc])
        · exact strContains_of_eq _ ("image repository " ++ repo.Namespace ++ "/")
            repo.Name (": tag \"" ++ tag ++ "\" not found in tag history")
            (by simp [tagHistoryMissingMsg, String.append_assoc])
        · exact strContains_of_eq _
            ("image repository " ++ repo.Namespace ++ "/" ++ repo.Name ++ ": tag \"")
            tag "\" not found in tag history"
            (by simp [tagHistoryMissingMsg, String.append_assoc])
      | some hist =>
        cases h3 : hist.Items with
        | nil =>
          simp [LatestTaggedImage, h1, h2, h3] at hmsg
          rw [← hmsg]
          refine ⟨?_, ?_, ?_⟩
          · exact strContains_of_eq _ "image repository " repo.Namespace
              ("/" ++ repo.Name ++ ": tag \"" ++ tag ++ "\" has 0 history items")
              (by simp [tagHistoryEmptyMsg, String.append_assoc])
          · exact strContains_of_eq _ ("image repository " ++ repo.Namespace ++ "/")
              repo.Name (": tag \"" ++ tag ++ "\" has 0 history items")
              (by simp [tagHistoryEmptyMsg, String.append_assoc])
          · exact strContains_of_eq _
              ("image repository " ++ repo.Namespace ++ "/" ++ repo.Name ++ ": tag \"")
              tag "\" has 0 history items"
              (by simp [tagHistoryEmptyMsg, String.append_assoc])
        | cons e es =>
          simp [LatestTaggedImage, h1, h2, h3] at hmsg

/-- C3 witness: the most recent entry (index 0) is returned, not a later
one. -/
theorem latestTaggedImage_policy_witness :
    LatestTaggedImage exampleRepo "latest" = Except.ok ⟨"t1", "imgA", 1⟩ :=
  (latestTaggedImage_policy exampleRepo "latest").2.2.2.1 "ref"
    ⟨[⟨"t1", "imgA", 1⟩, ⟨"t2", "imgB", 2⟩]⟩ ⟨"t1", "imgA", 1⟩ [⟨"t2", "imgB", 2⟩]
    rfl rfl rfl

end ImageApi
